import Mathlib

/-!
Verification of the autotester server core (documentation-to-test-plan
generation pipeline) against its natural-language specification.

The definitions below are shallow embeddings of the JavaScript source:

* `extractCodeSnippet` embeds `server/utils.js` (fenced-code-block extraction
  via the regex pattern of three backticks, an optional alphanumeric language
  tag, a newline, a lazily captured interior, and a newline-backtick-backtick-
  backtick closer).
* `Json`, `strictCaseEval`, `looseCaseEval`, `validationThrows` embed the
  structural validation of the parsed model output in the
  `POST /api/tests/generate` handler of `server/index.js`, including the
  `TypeError`s thrown by property access on `null` elements and steps,
  which the handler's catch turns into the 500 parse-failure response.
* `checkAiLimit` embeds the daily AI-usage limiter middleware of
  `server/index.js`.
* `runTestHandler` embeds the `POST /api/tests/:id/run` handler.
* `getTextGemini` embeds the result shape of `server/gemini.js`.
* `fetchPageContent` embeds the guard logic of `server/search.js`.
* `generateHandler` embeds the control flow of `POST /api/tests/generate`.
* `listTests` embeds the `GET /api/tests` handler (search-free path).

External effects (the HTTP fetch, the Vertex AI call, `JSON.parse`, the
cheerio DOM text extraction, MongoDB) are modelled as explicit oracle
arguments so that each handler becomes a pure function of its inputs and
of the outcomes of those effects.
-/

namespace AutoTester

/-! ### JSON values (shape of `JSON.parse` output) -/

/-- A JavaScript JSON value, as produced by `JSON.parse`. -/
inductive Json where
  | null
  | bool (b : Bool)
  | num (n : Int)
  | str (s : String)
  | arr (xs : List Json)
  | obj (fields : List (String × Json))

/-- Structural field lookup without JavaScript evaluation semantics (a
non-object simply has no field).  Used only by the claim-words predicate
`specValidationFails`; the source's property accesses, which *throw* a
`TypeError` on `null`, are modelled by `Json.getFieldE`. -/
def Json.getField : Json → String → Option Json
  | Json.obj fs, k => fs.lookup k
  | _, _ => none

/-- JavaScript property access `v.k` as evaluated by the source: the outer
`none` is a thrown `TypeError` (access on `null`; `JSON.parse` cannot
produce `undefined`), otherwise the field value, with `some none` standing
for `undefined` (absent field, or access on a non-null non-object). -/
def Json.getFieldE : Json → String → Option (Option Json)
  | Json.null, _ => none
  | Json.obj fs, k => some (fs.lookup k)
  | _, _ => some none

/-- `typeof v === 'string'` on an optional JSON value (`none` = `undefined`). -/
def Json.optIsStr : Option Json → Bool
  | some (Json.str _) => true
  | _ => false

/-! ### Structural validation of the model output
(`POST /api/tests/generate`, `server/index.js` lines 246-296)

The validation guards are JavaScript *expressions*, so they are modelled as
evaluators returning `Option Bool`: `none` is a thrown `TypeError`
(propagating to the handler's `catch (parseError)`), `some b` is the value
`b`.  `&&` and `Array.prototype.every` short-circuit left to right. -/

/-- Evaluate `steps.every((step) => typeof step.action === 'string')`:
stops at the first step whose check is false, throws on a `null` step
reached before that. -/
def stepsEval : List Json → Option Bool
  | [] => some true
  | st :: rest =>
    match st.getFieldE "action" with
    | none => none
    | some v => if Json.optIsStr v then stepsEval rest else some false

/-- Evaluate the strict per-case check of the outer `if` guard:
`typeof tc.name === 'string' && Array.isArray(tc.steps) &&
tc.steps.length > 0 && tc.steps.every(step => typeof step.action === 'string')`
(throws on `tc = null`, and on `null` steps via `stepsEval`). -/
def strictCaseEval (tc : Json) : Option Bool :=
  match tc.getFieldE "name" with
  | none => none
  | some nv =>
    if !Json.optIsStr nv then some false
    else
      match tc.getFieldE "steps" with
      | none => none
      | some sv =>
        match sv with
        | some (Json.arr ss) =>
          if ss.length = 0 then some false else stepsEval ss
        | _ => some false

/-- Evaluate `t.every(strictCaseEval)` with short-circuiting. -/
def strictEvalAll : List Json → Option Bool
  | [] => some true
  | tc :: rest =>
    match strictCaseEval tc with
    | none => none
    | some false => some false
    | some true => strictEvalAll rest

/-- Evaluate the lenient per-case check that decides the third inner throw:
`typeof tc.name === 'string' && Array.isArray(tc.steps)`
(throws on `tc = null`). -/
def looseCaseEval (tc : Json) : Option Bool :=
  match tc.getFieldE "name" with
  | none => none
  | some nv =>
    if !Json.optIsStr nv then some false
    else
      match tc.getFieldE "steps" with
      | none => none
      | some sv =>
        match sv with
        | some (Json.arr _) => some true
        | _ => some false

/-- Evaluate `t.every(looseCaseEval)` with short-circuiting. -/
def looseEvalAll : List Json → Option Bool
  | [] => some true
  | tc :: rest =>
    match looseCaseEval tc with
    | none => none
    | some false => some false
    | some true => looseEvalAll rest

/-- `validationThrows j = true` iff the structural-validation block of the
generate handler ends in `catch (parseError)` on the parsed value `j`
(aborting generation with the 500 parse-failure response).  Mirrors the
source, including its thrown `TypeError`s: a non-array or an empty array
throws before the strict `every` runs; a `TypeError` during the strict
guard aborts; when the strict guard evaluates to `false`, the handler
throws when the lenient `every` throws a `TypeError` or evaluates to
`false`, and otherwise only logs a warning and proceeds. -/
def validationThrows (j : Json) : Bool :=
  match j with
  | Json.arr xs =>
    if xs.length = 0 then true
    else
      match strictEvalAll xs with
      | none => true
      | some true => false
      | some false =>
        match looseEvalAll xs with
        | none => true
        | some ok => !ok
  | _ => true

/-- The abort condition in the words of the claim under test (structural
validation fails exactly when the top-level value is not a non-empty array,
or some element lacks a string `name` or lacks a *non-empty* array `steps`).
This definition follows the claim, not the source; it exists to be compared
against `validationThrows`. -/
def specValidationFails (j : Json) : Bool :=
  match j with
  | Json.arr xs =>
    xs.isEmpty ||
      !(xs.all (fun tc =>
        Json.optIsStr (tc.getField "name") &&
          (match tc.getField "steps" with
           | some (Json.arr ss) => !ss.isEmpty
           | _ => false)))
  | _ => true

/-! ### Fenced-code-block extraction (`server/utils.js`)

`extractCodeSnippet` applies the regular expression pattern: three backticks,
an optional run of ASCII alphanumerics (the language tag), a newline, a lazily
captured interior, and a newline followed by three backticks.  The leftmost
full match wins and its capture group is returned; with no match the whole
text is returned verbatim. -/

/-- The backtick character. -/
def bq : Char := Char.ofNat 96

/-- The newline character. -/
def nl : Char := Char.ofNat 10

/-- The opening delimiter: three backticks. -/
def openMark : List Char := [bq, bq, bq]

/-- The closing delimiter: a newline followed by three backticks. -/
def closeMark : List Char := [nl, bq, bq, bq]

/-- A character matched by the language-tag class `[a-zA-Z0-9]`. -/
def isTagChar (c : Char) : Bool := c.isAlpha || c.isDigit

/-- Skip the maximal run of language-tag characters (the greedy
`[a-zA-Z0-9]*`; since a newline is not in the class, greediness with
backtracking is equivalent to taking the maximal run). -/
def dropAlnums : List Char → List Char
  | [] => []
  | c :: cs => if isTagChar c then dropAlnums cs else c :: cs

/-- Find the earliest occurrence of the closing delimiter (the lazy capture
`([\s\S]*?)` followed by the closer): returns the interior before it and the
remainder after it. -/
def findClose : List Char → Option (List Char × List Char)
  | [] => none
  | c :: cs =>
    if (c :: cs).take 4 = closeMark then
      some ([], (c :: cs).drop 4)
    else
      match findClose cs with
      | some p => some (c :: p.1, p.2)
      | none => none

/-- Attempt the whole fence pattern anchored at the head of `l`; on success
return the captured interior. -/
def tryMatchAt (l : List Char) : Option (List Char) :=
  if l.take 3 = openMark then
    let afterTag := dropAlnums (l.drop 3)
    if afterTag.take 1 = [nl] then (findClose (afterTag.drop 1)).map Prod.fst
    else none
  else none

/-- Scan left to right for the first position where the fence pattern
matches (the regex engine's leftmost-match rule). -/
def findFence : List Char → Option (List Char)
  | [] => none
  | c :: cs =>
    match tryMatchAt (c :: cs) with
    | some inner => some inner
    | none => findFence cs

/-- `extractCodeSnippet` from `server/utils.js`: the capture group of the
first fenced code block when one matches, the whole text otherwise. -/
def extractCodeSnippet (s : String) : String :=
  match findFence s.data with
  | some inner => String.mk inner
  | none => s

/-! ### Usage limiter (`checkAiLimit` middleware, `server/index.js` lines 127-170)

Calendar days are abstracted as natural numbers: two requests fall on the same
calendar day exactly when their day numbers are equal (the source compares
`toDateString()` values).  The persisted user state is the triple of fields
the middleware reads and writes.  `GateResult.allowed` is the middleware
calling `next()`; `GateResult.quotaExceeded429` is the 429 JSON response. -/

/-- The user-record fields read and written by the limiter. -/
structure UserRec where
  subscriptionStatus : String
  aiRequestCount : Nat
  lastAiRequestTime : Option Nat
deriving DecidableEq

/-- Outcome of the limiter middleware for one request. -/
inductive GateResult where
  | allowed
  | quotaExceeded429
deriving DecidableEq

/-- `const dailyLimit = 3` in the source. -/
def dailyLimit : Nat := 3

/-- The subscription states exempt from the limit:
`subscriptionStatus === 'active' || subscriptionStatus === 'trialing'`
(the source tests the negation). -/
def subscriptionExempt (u : UserRec) : Bool :=
  u.subscriptionStatus == "active" || u.subscriptionStatus == "trialing"

/-- One pass of the `checkAiLimit` middleware: takes the looked-up user
record (`none` when `User.findById` finds nothing) and today's calendar day,
returns the gate outcome and the persisted user state afterwards. -/
def checkAiLimit (user : Option UserRec) (today : Nat) :
    GateResult × Option UserRec :=
  match user with
  | none => (GateResult.allowed, none)
  | some u =>
    if subscriptionExempt u then (GateResult.allowed, some u)
    else
      match u.lastAiRequestTime with
      | some last =>
        if last = today then
          if dailyLimit ≤ u.aiRequestCount then (GateResult.quotaExceeded429, some u)
          else
            (GateResult.allowed,
             some { u with aiRequestCount := u.aiRequestCount + 1 })
        else
          (GateResult.allowed,
           some { u with aiRequestCount := 1, lastAiRequestTime := some today })
      | none =>
        (GateResult.allowed,
         some { u with aiRequestCount := 1, lastAiRequestTime := some today })

/-- Run a sequence of generation requests (given by the calendar day of each
request) through the limiter, threading the persisted user state. -/
def runSeq (user : Option UserRec) : List Nat → List GateResult × Option UserRec
  | [] => ([], user)
  | d :: ds =>
    let r := checkAiLimit user d
    let rest := runSeq r.2 ds
    (r.1 :: rest.1, rest.2)

/-! ### Run endpoint (`POST /api/tests/:id/run`, `server/index.js` lines 326-377) -/

/-- The test-plan fields the run handler reads. -/
structure TestPlanRec where
  id : Nat
  userId : Nat
deriving DecidableEq

/-- The authenticated requester (`req.user`). -/
structure Requester where
  id : Nat
  isAdmin : Bool
deriving DecidableEq

/-- The report document created by the run handler. -/
structure TestReportRec where
  testPlanId : Nat
  userId : Nat
  status : String
deriving DecidableEq

/-- Responses of the run endpoint. -/
inductive RunResponse where
  | notFound
  | forbidden
  | accepted (report : TestReportRec)
deriving DecidableEq

/-- The `POST /api/tests/:id/run` handler: `plan` is the result of
`TestCase.findById`.  On success it persists a new report with
`userId: req.user.id` and `status: 'queued'`. -/
def runTestHandler (plan : Option TestPlanRec) (requester : Requester) :
    RunResponse :=
  match plan with
  | none => RunResponse.notFound
  | some p =>
    if p.userId ≠ requester.id ∧ requester.isAdmin = false then
      RunResponse.forbidden
    else
      RunResponse.accepted
        { testPlanId := p.id, userId := requester.id, status := "queued" }

/-! ### Model gateway (`getTextGemini`, `server/gemini.js`) -/

/-- Possible outcomes of the backend Vertex AI interaction:
the call throws, the response carries no text part, or it carries text. -/
inductive BackendOutcome where
  | errored
  | noText
  | text (s : String)
deriving DecidableEq

/-- Result shape of `getTextGemini`: the catch block returns `null`, a
missing text part yields `textResponse || null` with `textResponse`
undefined, and a present text part yields `textResponse || null` (so the
empty string is also collapsed to `null`). -/
def getTextGemini (outcome : BackendOutcome) : Option String :=
  match outcome with
  | BackendOutcome.errored => none
  | BackendOutcome.noText => none
  | BackendOutcome.text s => if s = "" then none else some s

/-- `generateAIResponse` in `server/index.js` wraps `getTextGemini` in a
try/catch that rethrows; since `getTextGemini` catches every error itself
and returns `null`, the wrapper is the identity on its result. -/
def generateAIResponse (outcome : BackendOutcome) : Option String :=
  getTextGemini outcome

/-! ### Content fetcher (`fetchPageContent`, `server/search.js`)

The network is an oracle (`FetchEvent`); the cheerio DOM-to-text extraction
(element removal and `$('body').text()`) is an oracle function
`extractText`.  The returned flag records whether `response.text()` (the
body download) was reached. -/

/-- `const MAX_FILE_SIZE = 1 * 1024 * 1024` in the source. -/
def MAX_FILE_SIZE : Nat := 1 * 1024 * 1024

/-- `export const MAX_PAGE_CONTENT_LENGTH = 7000` in the source. -/
def MAX_PAGE_CONTENT_LENGTH : Nat := 7000

/-- The response metadata the guards inspect, plus the body. -/
structure HttpResponse where
  ok : Bool
  contentType : Option String
  contentLength : Option Nat
  body : String

/-- Outcome of the `fetch` call: abort timeout, other network failure, or a
response. -/
inductive FetchEvent where
  | timeout
  | networkError
  | response (r : HttpResponse)

/-- `haystack.includes(needle)` on the character list level. -/
def containsFrom (needle : List Char) : List Char → Bool
  | [] => needle.isEmpty
  | c :: cs => needle.isPrefixOf (c :: cs) || containsFrom needle cs

/-- JavaScript `String.prototype.includes`. -/
def strIncludes (haystack needle : String) : Bool :=
  containsFrom needle.data haystack.data

/-- The content-type guard: header present and including one of
`application/pdf`, `audio`, `video`, `image`, `binary`. -/
def skippedContentType (ct : Option String) : Bool :=
  match ct with
  | none => false
  | some t =>
    strIncludes t "application/pdf" || strIncludes t "audio" ||
      strIncludes t "video" || strIncludes t "image" || strIncludes t "binary"

/-- The content-length guard:
`contentLength && parseInt(contentLength, 10) > MAX_FILE_SIZE`
(`none` covers both a missing header and an unparseable one, for which the
`NaN` comparison is false). -/
def oversized (cl : Option Nat) : Bool :=
  match cl with
  | some len => decide (MAX_FILE_SIZE < len)
  | none => false

/-- JavaScript `\s` (whitespace class member). -/
def isWsChar (c : Char) : Bool := c.isWhitespace

/-- `content.replace(/\s\s+/g, ' ')`: every run of two or more whitespace
characters becomes a single space. -/
def collapseWs : List Char → List Char
  | [] => []
  | [c] => [c]
  | c :: d :: rest =>
    if isWsChar c && isWsChar d then collapseWs (Char.ofNat 32 :: rest)
    else c :: collapseWs (d :: rest)
termination_by l => l.length

/-- JavaScript `String.prototype.trim`. -/
def trimChars (l : List Char) : List Char :=
  ((l.dropWhile isWsChar).reverse.dropWhile isWsChar).reverse

/-- `fetchPageContent`: the pair is (returned value, whether the body was
downloaded).  Every failure path returns `null` (the outer catch makes the
function total), and all three guards fire before `response.text()`. -/
def fetchPageContent (ev : FetchEvent) (extractText : String → String) :
    Option String × Bool :=
  match ev with
  | FetchEvent.timeout => (none, false)
  | FetchEvent.networkError => (none, false)
  | FetchEvent.response r =>
    if r.ok = false then (none, false)
    else if skippedContentType r.contentType = true then (none, false)
    else if oversized r.contentLength = true then (none, false)
    else
      let content := trimChars (collapseWs (extractText r.body).data)
      (some ((String.mk content).take MAX_PAGE_CONTENT_LENGTH), true)

/-! ### Prompt builder and generation endpoint
(`POST /api/tests/generate`, `server/index.js` lines 177-323) -/

/-- The fallback text substituted for missing documentation content. -/
def fallbackMarker : String := "No documentation content available."

/-- The prompt template up to the interpolated application URL
(transcribed from the template literal of the source). -/
def promptHeader : String :=
  "As an AI QA expert, analyze the following documentation content and the target web application URL to generate a comprehensive test plan.\n        The test plan should be provided as a JSON object containing an array of test cases.\n        Each test case should include:\n        - a 'name' (string, e.g., \"Verify user login\")\n        - a 'description' (string, explaining the goal of the test)\n        - a 'steps' array (array of objects, each object representing a test step)\n        Each step object should include:\n        - 'action' (string, e.g., \"navigate\", \"click\", \"type\", \"assert\", \"wait\")\n        - 'selector' (string, CSS selector or similar, for elements to interact with, if applicable)\n        - 'value' (string, value to type or text to assert, if applicable)\n        - 'expected' (string, expected outcome or state after the step, for assertions)\n        - 'optional' (boolean, true if step failure should not stop the test, default: false)\n\n        Ensure the first step of each test case is always to navigate to the appUrl.\n        Focus on generating realistic user flows and edge cases based on the documentation.\n        Consider common web application interactions like navigation, form submission, button clicks, link clicks, text verification, etc.\n        If documentation content is unavailable or minimal, generate basic smoke tests based on the URL structure and common web elements.\n\n        Target Web Application URL: "

/-- The template segment between the application URL and the documentation
content. -/
def promptMiddle : String := "\n\n        Documentation Content:\n        "

/-- The template segment after the documentation content. -/
def promptFooter : String := "\n\n        Generate the JSON test plan:"

/-- `${docContent ? docContent : 'No documentation content available.'}`:
a missing or empty (falsy) content string becomes the fallback marker. -/
def docSection (docContent : Option String) : String :=
  match docContent with
  | some s => if s = "" then fallbackMarker else s
  | none => fallbackMarker

/-- The prompt sent to the model, as interpolated by the handler. -/
def buildPrompt (appUrl : String) (docContent : Option String) : String :=
  promptHeader ++ appUrl ++ promptMiddle ++ docSection docContent ++ promptFooter

/-- Outcome of the `fetchPageContent` call as seen by the generate handler:
either a resolved value or a thrown error (which the handler catches and
treats as missing content). -/
inductive FetchOutcome where
  | ok (content : Option String)
  | err

/-- The documentation content after the handler's try/catch around the
fetch: a thrown fetch leaves `docContent` at `null`. -/
def fetchedDoc : FetchOutcome → Option String
  | FetchOutcome.ok c => c
  | FetchOutcome.err => none

/-- Responses of the generation endpoint: 400 for missing input, an error
passed to `next` (model call failed or returned nothing), the 500 response
carrying `rawAiResponse`, or the 201 success with the stored plan. -/
inductive GenResponse where
  | missingInput
  | handlerError
  | parseFailure (rawAiResponse : String)
  | created (plan : Json)

/-- The handler stages downstream of prompt construction: call the model,
reject a missing/empty response, then extract, parse and validate; any
parse/validation throw is answered with the raw model output attached. -/
def generateAfterPrompt (prompt : String) (ai : String → Option String)
    (parse : String → Option Json) : GenResponse :=
  match ai prompt with
  | none => GenResponse.handlerError
  | some aiResponse =>
    if aiResponse = "" then GenResponse.handlerError
    else
      match parse (extractCodeSnippet aiResponse) with
      | none => GenResponse.parseFailure aiResponse
      | some j =>
        if validationThrows j then GenResponse.parseFailure aiResponse
        else GenResponse.created j

/-- The `POST /api/tests/generate` handler: `ai` is the oracle for
`generateAIResponse` (`none` = the call threw) and `parse` the oracle for
`JSON.parse` (`none` = it threw).  The second component is the prompt
passed to the model, `none` when the request is rejected before the model
call. -/
def generateHandler (docLink appUrl : Option String) (fetched : FetchOutcome)
    (ai : String → Option String) (parse : String → Option Json) :
    GenResponse × Option String :=
  match docLink, appUrl with
  | some dl, some au =>
    if dl = "" ∨ au = "" then (GenResponse.missingInput, none)
    else
      let prompt := buildPrompt au (fetchedDoc fetched)
      (generateAfterPrompt prompt ai parse, some prompt)
  | _, _ => (GenResponse.missingInput, none)

/-! ### List endpoint (`GET /api/tests`, `server/index.js` lines 428-518)

Modelled on the search-free path (no `search` query parameter): the plan
query filters by owner, the report query by owner and optional status; each
is sorted by creation time descending, then `skip` and `limit` are applied
per query; the two result lists are tagged, concatenated and re-sorted. -/

/-- The plan fields the list endpoint touches. -/
structure StoredPlan where
  userId : Nat
  createdAt : Int
  docLink : String
  appUrl : String
deriving DecidableEq

/-- The report fields the list endpoint touches. -/
structure StoredReport where
  userId : Nat
  createdAt : Int
  status : String
deriving DecidableEq

/-- A merged-list entry with its `type` tag. -/
inductive TaggedDoc where
  | plan (p : StoredPlan)
  | report (r : StoredReport)
deriving DecidableEq

/-- Creation time of a tagged document. -/
def TaggedDoc.createdAt : TaggedDoc → Int
  | TaggedDoc.plan p => p.createdAt
  | TaggedDoc.report r => r.createdAt

/-- Insertion step of a descending sort by the given key. -/
def insertDescBy {α : Type} (key : α → Int) (x : α) : List α → List α
  | [] => [x]
  | y :: ys =>
    if key y ≤ key x then x :: (y :: ys) else y :: insertDescBy key x ys

/-- Descending sort by the given key (`sort({ createdAt: -1 })` and the
in-memory `combinedList.sort`). -/
def sortDescBy {α : Type} (key : α → Int) (l : List α) : List α :=
  l.foldr (insertDescBy key) []

/-- The plans query: filter by owner, sort descending, then skip and
limit (MongoDB applies skip before limit). -/
def planQuery (db : List StoredPlan) (uid : Nat) (lim skip : Nat) :
    List StoredPlan :=
  (((sortDescBy StoredPlan.createdAt
      (db.filter fun p => p.userId == uid)).drop skip).take lim)

/-- The reports query: filter by owner and optional status, sort
descending, then skip and limit. -/
def reportQuery (db : List StoredReport) (uid : Nat) (status : Option String)
    (lim skip : Nat) : List StoredReport :=
  (((sortDescBy StoredReport.createdAt
      (db.filter fun r =>
        r.userId == uid &&
          (match status with
           | some st => r.status == st
           | none => true))).drop skip).take lim)

/-- The `GET /api/tests` handler body: run the two queries (subject to the
`type` parameter), tag, concatenate and sort the combined list by creation
time descending. -/
def listTests (plansDb : List StoredPlan) (reportsDb : List StoredReport)
    (uid : Nat) (typ : Option String) (status : Option String)
    (lim skip : Nat) : List TaggedDoc :=
  sortDescBy TaggedDoc.createdAt
    ((if typ = none ∨ typ = some "plan" then planQuery plansDb uid lim skip
      else []).map TaggedDoc.plan ++
     (if typ = none ∨ typ = some "report" then
        reportQuery reportsDb uid status lim skip
      else []).map TaggedDoc.report)

/-! ### Lemmas about the validator -/

lemma strictCase_implies_looseCase (tc : Json)
    (h : strictCaseEval tc = some true) : looseCaseEval tc = some true := by
  unfold strictCaseEval at h
  unfold looseCaseEval
  cases hn : tc.getFieldE "name" with
  | none => rw [hn] at h; exact absurd h (by simp)
  | some nv =>
    rw [hn] at h
    dsimp only at h ⊢
    by_cases hstr : Json.optIsStr nv = true
    · rw [if_neg (by simp [hstr])] at h ⊢
      cases hs : tc.getFieldE "steps" with
      | none => rw [hs] at h; simp at h
      | some sv =>
        rw [hs] at h
        cases sv with
        | none => simp at h
        | some v => cases v <;> simp_all
    · rw [if_pos (by simp [hstr])] at h
      exact absurd h (by simp)

lemma strictAll_implies_looseAll (xs : List Json)
    (h : strictEvalAll xs = some true) : looseEvalAll xs = some true := by
  induction xs with
  | nil => rfl
  | cons tc rest ih =>
    unfold strictEvalAll at h
    unfold looseEvalAll
    cases hc : strictCaseEval tc with
    | none => rw [hc] at h; exact absurd h (by simp)
    | some b =>
      rw [hc] at h
      cases b with
      | false => exact absurd h (by simp)
      | true =>
        rw [strictCase_implies_looseCase tc hc]
        exact ih h

lemma looseEvalAll_iff (xs : List Json) :
    looseEvalAll xs = some true ↔ ∀ tc ∈ xs, looseCaseEval tc = some true := by
  induction xs with
  | nil => simp [looseEvalAll]
  | cons tc rest ih =>
    unfold looseEvalAll
    cases hc : looseCaseEval tc with
    | none =>
      simp only [List.mem_cons]
      constructor
      · intro h; exact absurd h (by simp)
      · intro h
        exact absurd (h tc (Or.inl rfl)) (by simp [hc])
    | some b =>
      cases b with
      | false =>
        simp only [List.mem_cons]
        constructor
        · intro h; exact absurd h (by simp)
        · intro h
          exact absurd (h tc (Or.inl rfl)) (by simp [hc])
      | true =>
        simp only [List.mem_cons]
        constructor
        · intro h tc' htc'
          rcases htc' with h1 | h2
          · rw [h1]; exact hc
          · exact (ih.mp h) tc' h2
        · intro h
          exact ih.mpr fun tc' htc' => h tc' (Or.inr htc')

/-! ### Lemmas about the extractor -/

lemma dropAlnums_append_nl (tag rest : List Char)
    (htag : ∀ c ∈ tag, isTagChar c = true) :
    dropAlnums (tag ++ (nl :: rest)) = nl :: rest := by
  induction tag with
  | nil =>
    show dropAlnums (nl :: rest) = nl :: rest
    rw [dropAlnums, if_neg]
    simp [(by decide : isTagChar nl = false)]
  | cons c cs ih =>
    have hc : isTagChar c = true := htag c (List.mem_cons_self c cs)
    show dropAlnums (c :: (cs ++ (nl :: rest))) = nl :: rest
    rw [dropAlnums, if_pos hc]
    exact ih fun d hd => htag d (List.mem_cons_of_mem c hd)

lemma findClose_append (inner post : List Char)
    (hin : ∀ c ∈ inner, c ≠ bq) :
    findClose (inner ++ (closeMark ++ post)) = some (inner, post) := by
  induction inner with
  | nil =>
    show findClose (nl :: (bq :: (bq :: (bq :: post)))) = some ([], post)
    rw [findClose, if_pos (by simp [closeMark])]
    rfl
  | cons c cs ih =>
    have hc : c ≠ bq := hin c (List.mem_cons_self c cs)
    have ih' := ih fun d hd => hin d (List.mem_cons_of_mem c hd)
    show findClose (c :: (cs ++ (closeMark ++ post))) = some (c :: cs, post)
    have hne : ¬((c :: (cs ++ (closeMark ++ post))).take 4 = closeMark) := by
      cases cs with
      | nil =>
        show ¬([c, nl, bq, bq] = closeMark)
        simp [closeMark, (by decide : ¬(nl = bq))]
      | cons d cs' =>
        have hd : d ≠ bq := hin d (List.mem_cons_of_mem c (List.mem_cons_self d cs'))
        show ¬(c :: (d :: ((cs' ++ (closeMark ++ post)).take 2)) = closeMark)
        simp [closeMark, hd]
    rw [findClose, if_neg hne, ih']

lemma tryMatchAt_fence (tag inner post : List Char)
    (htag : ∀ c ∈ tag, isTagChar c = true) (hin : ∀ c ∈ inner, c ≠ bq) :
    tryMatchAt (openMark ++ (tag ++ (nl :: (inner ++ (closeMark ++ post))))) =
      some inner := by
  show tryMatchAt (bq :: (bq :: (bq :: (tag ++ (nl :: (inner ++ (closeMark ++ post))))))) = some inner
  unfold tryMatchAt
  rw [if_pos (by simp [openMark])]
  simp only [List.drop_succ_cons, List.drop_zero]
  rw [dropAlnums_append_nl tag _ htag]
  rw [if_pos (by simp)]
  simp only [List.take_succ_cons, List.drop_succ_cons, List.drop_zero]
  rw [findClose_append inner post hin]
  rfl

lemma tryMatchAt_non_bq (c : Char) (cs : List Char) (hc : c ≠ bq) :
    tryMatchAt (c :: cs) = none := by
  unfold tryMatchAt
  rw [if_neg]
  intro h
  rw [List.take_succ_cons] at h
  exact hc (by injection h)

lemma findFence_skip (a rest : List Char) (ha : ∀ c ∈ a, c ≠ bq) :
    findFence (a ++ rest) = findFence rest := by
  induction a with
  | nil => rfl
  | cons c cs ih =>
    have hc : c ≠ bq := ha c (List.mem_cons_self c cs)
    show findFence (c :: (cs ++ rest)) = findFence rest
    rw [findFence, tryMatchAt_non_bq c _ hc]
    exact ih fun d hd => ha d (List.mem_cons_of_mem c hd)

lemma findFence_at_fence (tag inner post : List Char)
    (htag : ∀ c ∈ tag, isTagChar c = true) (hin : ∀ c ∈ inner, c ≠ bq) :
    findFence (openMark ++ (tag ++ (nl :: (inner ++ (closeMark ++ post))))) =
      some inner := by
  show findFence (bq :: (bq :: (bq :: (tag ++ (nl :: (inner ++ (closeMark ++ post))))))) = some inner
  rw [findFence]
  rw [show (bq :: (bq :: (bq :: (tag ++ (nl :: (inner ++ (closeMark ++ post))))))) =
        openMark ++ (tag ++ (nl :: (inner ++ (closeMark ++ post)))) from rfl]
  rw [tryMatchAt_fence tag inner post htag hin]

/-! ### Lemmas about the usage limiter -/

lemma runSeq_cons (u : Option UserRec) (d : Nat) (ds : List Nat) :
    runSeq u (d :: ds) =
      ((checkAiLimit u d).1 :: (runSeq (checkAiLimit u d).2 ds).1,
       (runSeq (checkAiLimit u d).2 ds).2) := rfl

lemma runSeq_append (u : Option UserRec) (l1 l2 : List Nat) :
    runSeq u (l1 ++ l2) =
      ((runSeq u l1).1 ++ (runSeq (runSeq u l1).2 l2).1,
       (runSeq (runSeq u l1).2 l2).2) := by
  induction l1 generalizing u with
  | nil => rfl
  | cons d ds ih =>
    simp [runSeq_cons, ih, List.cons_append]

lemma checkAiLimit_new_day (u : UserRec) (today : Nat)
    (hsub : subscriptionExempt u = false)
    (hday : ∀ l, u.lastAiRequestTime = some l → l ≠ today) :
    checkAiLimit (some u) today =
      (GateResult.allowed,
       some { u with aiRequestCount := 1, lastAiRequestTime := some today }) := by
  simp only [checkAiLimit]
  rw [if_neg (by simp [hsub])]
  cases hl : u.lastAiRequestTime with
  | none => rfl
  | some l =>
    dsimp only
    rw [if_neg (hday l hl)]

lemma checkAiLimit_same_day_under (u : UserRec) (today : Nat)
    (hsub : subscriptionExempt u = false)
    (hlast : u.lastAiRequestTime = some today)
    (hcnt : u.aiRequestCount < dailyLimit) :
    checkAiLimit (some u) today =
      (GateResult.allowed, some { u with aiRequestCount := u.aiRequestCount + 1 }) := by
  simp only [checkAiLimit, hlast]
  rw [if_neg (by simp [hsub]), if_pos trivial, if_neg (by omega)]

lemma checkAiLimit_same_day_over (u : UserRec) (today : Nat)
    (hsub : subscriptionExempt u = false)
    (hlast : u.lastAiRequestTime = some today)
    (hcnt : dailyLimit ≤ u.aiRequestCount) :
    checkAiLimit (some u) today = (GateResult.quotaExceeded429, some u) := by
  simp only [checkAiLimit, hlast]
  rw [if_neg (by simp [hsub]), if_pos trivial, if_pos hcnt]

lemma runSeq_rejected (d : Nat) (v : UserRec)
    (hsub : subscriptionExempt v = false)
    (hlast : v.lastAiRequestTime = some d)
    (hcnt : dailyLimit ≤ v.aiRequestCount) :
    ∀ m, runSeq (some v) (List.replicate m d) =
      (List.replicate m GateResult.quotaExceeded429, some v) := by
  intro m
  induction m with
  | zero => rfl
  | succ k ih =>
    rw [List.replicate_succ, List.replicate_succ, runSeq_cons,
      checkAiLimit_same_day_over v d hsub hlast hcnt, ih]

/-! ### Lemmas about the list endpoint -/

lemma length_insertDescBy {α : Type} (key : α → Int) (x : α) (l : List α) :
    (insertDescBy key x l).length = l.length + 1 := by
  induction l with
  | nil => rfl
  | cons y ys ih =>
    simp only [insertDescBy]
    split
    · simp
    · simp [ih]

lemma length_sortDescBy {α : Type} (key : α → Int) (l : List α) :
    (sortDescBy key l).length = l.length := by
  induction l with
  | nil => rfl
  | cons y ys ih =>
    simp [sortDescBy, length_insertDescBy] at ih ⊢
    exact ih

/-! ## Claim theorems -/

/-- C1: for a user whose subscription status is neither active nor trialing
and whose last recorded request is not from day `d`, the limiter admits the
first three requests on day `d`, rejects the fourth and every further
request on day `d` with the 429 quota error, and admits the first request
on a later day `d'`, resetting the stored counter to 1. -/
theorem C1_daily_quota (u : UserRec) (d d' : Nat) (k : Nat)
    (hsub : subscriptionExempt u = false)
    (hday : ∀ l, u.lastAiRequestTime = some l → l ≠ d)
    (hd' : d' ≠ d) :
    runSeq (some u) (d :: (d :: (d :: (d :: (List.replicate k d ++ [d']))))) =
      (GateResult.allowed :: (GateResult.allowed :: (GateResult.allowed ::
        (GateResult.quotaExceeded429 ::
          (List.replicate k GateResult.quotaExceeded429 ++ [GateResult.allowed])))),
       some { u with aiRequestCount := 1, lastAiRequestTime := some d' }) := by
  rcases u with ⟨s, c, t⟩
  have h1 : checkAiLimit (some ⟨s, c, t⟩) d =
      (GateResult.allowed, some ⟨s, 1, some d⟩) :=
    checkAiLimit_new_day ⟨s, c, t⟩ d hsub hday
  have h2 : checkAiLimit (some ⟨s, 1, some d⟩) d =
      (GateResult.allowed, some ⟨s, 2, some d⟩) :=
    checkAiLimit_same_day_under ⟨s, 1, some d⟩ d hsub rfl
      (by show (1 : Nat) < dailyLimit; decide)
  have h3 : checkAiLimit (some ⟨s, 2, some d⟩) d =
      (GateResult.allowed, some ⟨s, 3, some d⟩) :=
    checkAiLimit_same_day_under ⟨s, 2, some d⟩ d hsub rfl
      (by show (2 : Nat) < dailyLimit; decide)
  have h4 : checkAiLimit (some ⟨s, 3, some d⟩) d =
      (GateResult.quotaExceeded429, some ⟨s, 3, some d⟩) :=
    checkAiLimit_same_day_over ⟨s, 3, some d⟩ d hsub rfl
      (by show dailyLimit ≤ (3 : Nat); decide)
  have h5 : checkAiLimit (some ⟨s, 3, some d⟩) d' =
      (GateResult.allowed, some ⟨s, 1, some d'⟩) :=
    checkAiLimit_new_day ⟨s, 3, some d⟩ d' hsub
      (fun l hl => by injection hl with h; rw [← h]; exact fun he => hd' he.symm)
  have h6 : runSeq (some ⟨s, 3, some d⟩) (List.replicate k d) =
      (List.replicate k GateResult.quotaExceeded429, some ⟨s, 3, some d⟩) :=
    runSeq_rejected d ⟨s, 3, some d⟩ hsub rfl
      (by show dailyLimit ≤ (3 : Nat); decide) k
  rw [runSeq_cons, h1]
  dsimp only
  rw [runSeq_cons, h2]
  dsimp only
  rw [runSeq_cons, h3]
  dsimp only
  rw [runSeq_cons, h4]
  dsimp only
  rw [runSeq_append, h6]
  dsimp only
  rw [runSeq_cons, h5]
  rfl

/-- Witness for C1: a free user starting with no recorded request, five
requests on day 0 and one on day 1. -/
theorem C1_daily_quota_witness :
    runSeq (some ⟨"free", 0, none⟩)
        (0 :: (0 :: (0 :: (0 :: (List.replicate 1 0 ++ [1]))))) =
      (GateResult.allowed :: (GateResult.allowed :: (GateResult.allowed ::
        (GateResult.quotaExceeded429 ::
          (List.replicate 1 GateResult.quotaExceeded429 ++ [GateResult.allowed])))),
       some ⟨"free", 1, some 1⟩) :=
  C1_daily_quota ⟨"free", 0, none⟩ 0 1 1 (by decide)
    (fun l hl => nomatch hl) (by decide)

/-- C2 counterexample: when `User.findById` finds no record (`user = none`),
the middleware admits the request (`next()` is reached, no quota applied),
refuting the claim that it fails closed by rejecting the request. -/
theorem C2_missing_user_admitted_counterexample :
    (checkAiLimit none 0).1 = GateResult.allowed := rfl

/-- C2 (amended): when no user record is found for the userId, the limiter
fails open — the request is admitted with no quota accounting and no state
change; only the upstream authentication middleware blocks callers. -/
theorem C2_missing_user_fails_open (d : Nat) :
    checkAiLimit none d = (GateResult.allowed, none) := rfl

/-- C3 counterexample: an administrator (id 2) running a plan owned by
user 1 produces a report whose `userId` is 2, the requester, not the plan
owner — refuting the claim that the report owner always equals the plan
owner. -/
theorem C3_admin_run_counterexample :
    runTestHandler (some ⟨10, 1⟩) ⟨2, true⟩ =
      RunResponse.accepted ⟨10, 2, "queued"⟩ ∧ (2 : Nat) ≠ 1 := by
  decide

/-- C3 (amended): a created report's owner equals the requester's id; when
the requester is not an administrator the ownership check forces the
requester to be the plan owner, so the report owner equals the plan owner
for non-admin requesters only. -/
theorem C3_report_owner_is_requester (p : TestPlanRec) (requester : Requester)
    (r : TestReportRec)
    (h : runTestHandler (some p) requester = RunResponse.accepted r) :
    r.userId = requester.id ∧
      (requester.isAdmin = false → r.userId = p.userId) := by
  simp only [runTestHandler] at h
  by_cases hcond : p.userId ≠ requester.id ∧ requester.isAdmin = false
  · rw [if_pos hcond] at h
    exact RunResponse.noConfusion h
  · rw [if_neg hcond] at h
    injection h with h'
    subst h'
    refine ⟨rfl, fun hadm => ?_⟩
    rcases not_and_or.mp hcond with hne | hadm'
    · rw [not_not] at hne
      exact hne.symm
    · exact absurd hadm hadm'

/-- Witness for C3 (amended): the plan owner (id 1, non-admin) runs their
own plan. -/
theorem C3_report_owner_is_requester_witness :
    (⟨10, 1, "queued"⟩ : TestReportRec).userId = (⟨1, false⟩ : Requester).id ∧
      ((⟨1, false⟩ : Requester).isAdmin = false →
        (⟨10, 1, "queued"⟩ : TestReportRec).userId =
          (⟨10, 1⟩ : TestPlanRec).userId) :=
  C3_report_owner_is_requester ⟨10, 1⟩ ⟨1, false⟩ ⟨10, 1, "queued"⟩ (by decide)

/-- C4 counterexample: the parsed value `[{name: "t", steps: []}]` — a
non-empty array whose single element has a string `name` but an *empty*
`steps` array — must fail validation according to the claim, yet the code
does not throw on it (it only logs a warning and proceeds). -/
theorem C4_empty_steps_counterexample :
    specValidationFails
        (Json.arr [Json.obj [("name", Json.str "t"), ("steps", Json.arr [])]]) = true
    ∧ validationThrows
        (Json.arr [Json.obj [("name", Json.str "t"), ("steps", Json.arr [])]]) = false := by
  decide

/-- C4 (amended): structural validation lets generation proceed exactly
when the parsed value is a non-empty array, the strict guard evaluates
without a `TypeError` (no `null` element, and no `null` step reached during
the strict scan), and every element is a non-`null` value with a string
`name` and an array `steps`; it aborts on everything else — a non-array, an
empty array, a thrown `TypeError`, or an element lacking a string `name` or
an array `steps`.  Emptiness of `steps` and non-string step actions alone
only produce a warning.  In particular the fenced output containing `[]` is
extracted to `[]` and rejected as an empty array, and
`[{name: "t", steps: [null]}]` aborts via the `TypeError` on
`step.action`. -/
theorem C4_validation_amended :
    (∀ j : Json, validationThrows j = false ↔
        ∃ xs, j = Json.arr xs ∧ xs ≠ [] ∧ strictEvalAll xs ≠ none ∧
          ∀ tc ∈ xs, looseCaseEval tc = some true)
    ∧ extractCodeSnippet "```json\n[]\n```" = "[]"
    ∧ validationThrows (Json.arr []) = true
    ∧ validationThrows
        (Json.arr [Json.obj [("name", Json.str "t"),
          ("steps", Json.arr [Json.null])]]) = true := by
  refine ⟨fun j => ?_, by decide, by decide, by decide⟩
  cases j with
  | arr xs =>
    by_cases hemp : xs = []
    · subst hemp
      simp [validationThrows]
    · simp only [validationThrows]
      rw [if_neg (by simpa [List.length_eq_zero] using hemp)]
      cases hst : strictEvalAll xs with
      | none =>
        dsimp only
        constructor
        · intro h
          exact absurd h (by simp)
        · rintro ⟨ys, hy, hne, hsn, hall⟩
          injection hy with hxy
          subst hxy
          exact absurd hst hsn
      | some b =>
        cases b with
        | true =>
          dsimp only
          constructor
          · intro _
            exact ⟨xs, rfl, hemp, by simp [hst],
              (looseEvalAll_iff xs).mp (strictAll_implies_looseAll xs hst)⟩
          · intro _
            rfl
        | false =>
          dsimp only
          cases hlo : looseEvalAll xs with
          | none =>
            dsimp only
            constructor
            · intro h
              exact absurd h (by simp)
            · rintro ⟨ys, hy, hne, hsn, hall⟩
              injection hy with hxy
              subst hxy
              have hlt := (looseEvalAll_iff xs).mpr hall
              rw [hlo] at hlt
              exact absurd hlt (by simp)
          | some ok =>
            dsimp only
            constructor
            · intro h
              have hok : ok = true := by
                cases ok
                · exact absurd h (by simp)
                · rfl
              subst hok
              exact ⟨xs, rfl, hemp, by simp [hst],
                (looseEvalAll_iff xs).mp hlo⟩
            · rintro ⟨ys, hy, hne, hsn, hall⟩
              injection hy with hxy
              subst hxy
              have hlt := (looseEvalAll_iff xs).mpr hall
              rw [hlo] at hlt
              injection hlt with hok
              rw [hok]
              rfl
  | null => simp [validationThrows]
  | bool b => simp [validationThrows]
  | num n => simp [validationThrows]
  | str s => simp [validationThrows]
  | obj fs => simp [validationThrows]

/-- C5: for a well-formed fence (no backtick in the text before the fence,
an alphanumeric language tag, no backtick inside the interior), the
extractor returns exactly the fence interior, not the surrounding prose;
and on any text with no backtick at all (hence no fence), the whole text is
returned verbatim — the extraction is a total function and cannot throw. -/
theorem C5_fence_extraction :
    (∀ a tag inner b : List Char,
        (∀ c ∈ a, c ≠ bq) → (∀ c ∈ tag, isTagChar c = true) →
        (∀ c ∈ inner, c ≠ bq) →
        extractCodeSnippet
            (String.mk
              (a ++ (openMark ++ (tag ++ (nl :: (inner ++ (closeMark ++ b))))))) =
          String.mk inner)
    ∧ (∀ s : String, (∀ c ∈ s.data, c ≠ bq) → extractCodeSnippet s = s) := by
  constructor
  · intro a tag inner b ha htag hin
    unfold extractCodeSnippet
    have hdata :
        (String.mk
          (a ++ (openMark ++ (tag ++ (nl :: (inner ++ (closeMark ++ b))))))).data =
        a ++ (openMark ++ (tag ++ (nl :: (inner ++ (closeMark ++ b))))) := rfl
    rw [hdata, findFence_skip a _ ha, findFence_at_fence tag inner b htag hin]
  · intro s hs
    unfold extractCodeSnippet
    have hnone : findFence s.data = none := by
      have h := findFence_skip s.data [] hs
      rw [List.append_nil] at h
      rw [h]
      rfl
    rw [hnone]

/-- Witness for C5: prose followed by a `json`-tagged fence containing
`[1]`, and a fence-free text. -/
theorem C5_fence_extraction_witness :
    extractCodeSnippet
        (String.mk
          (("pro ").data ++ (openMark ++ (("json").data ++
            (nl :: (("[1]").data ++ (closeMark ++ (" post").data))))))) =
      String.mk ("[1]").data
    ∧ extractCodeSnippet "no fence" = "no fence" :=
  ⟨C5_fence_extraction.1 ("pro ").data ("json").data ("[1]").data (" post").data
      (by decide) (by decide) (by decide),
   C5_fence_extraction.2 "no fence" (by decide)⟩

/-- C6: whenever the model call yields a (non-empty) raw output and the
subsequent JSON parse or structural validation fails, the generation
endpoint responds with the failure that carries exactly that raw model
output (`rawAiResponse`); the raw text is never discarded. -/
theorem C6_raw_output_surfaced (dl au : String) (fetched : FetchOutcome)
    (ai : String → Option String) (parse : String → Option Json) (raw : String)
    (hdl : dl ≠ "") (hau : au ≠ "")
    (hai : ai (buildPrompt au (fetchedDoc fetched)) = some raw) (hraw : raw ≠ "")
    (hfail : parse (extractCodeSnippet raw) = none ∨
      ∃ j, parse (extractCodeSnippet raw) = some j ∧ validationThrows j = true) :
    (generateHandler (some dl) (some au) fetched ai parse).1 =
      GenResponse.parseFailure raw := by
  simp only [generateHandler]
  rw [if_neg (not_or.mpr ⟨hdl, hau⟩)]
  simp only [generateAfterPrompt, hai]
  rw [if_neg hraw]
  rcases hfail with h | ⟨j, hj, hv⟩
  · rw [h]
  · rw [hj]
    simp only
    rw [if_pos hv]

/-- Witness for C6: the model answers with prose that is not JSON; the
parse oracle fails; the response carries the exact raw text. -/
theorem C6_raw_output_surfaced_witness :
    (generateHandler (some "https://docs.example") (some "https://app.example")
        (FetchOutcome.ok none)
        (fun _ => some "Sure! Here is your plan: \x7bnot json")
        (fun _ => none)).1 =
      GenResponse.parseFailure "Sure! Here is your plan: \x7bnot json" :=
  C6_raw_output_surfaced "https://docs.example" "https://app.example"
    (FetchOutcome.ok none)
    (fun _ => some "Sure! Here is your plan: \x7bnot json") (fun _ => none)
    "Sure! Here is your plan: \x7bnot json"
    (by decide) (by decide) rfl (by decide) (Or.inl rfl)

/-- C7: the content fetcher is a total function returning text or `null`
(it cannot throw to its caller), and whenever the response declares a
`Content-Length` above the 1 MB ceiling it returns `null` with the body
never downloaded, regardless of the other response fields. -/
theorem C7_fetch_guard (r : HttpResponse) (extractText : String → String)
    (len : Nat) (hcl : r.contentLength = some len) (hlen : MAX_FILE_SIZE < len) :
    fetchPageContent (FetchEvent.response r) extractText = (none, false) := by
  simp only [fetchPageContent]
  cases hok : r.ok with
  | false => rw [if_pos rfl]
  | true =>
    rw [if_neg (by simp)]
    cases hsk : skippedContentType r.contentType with
    | true => rw [if_pos rfl]
    | false =>
      rw [if_neg (by simp)]
      rw [if_pos (by simp [oversized, hcl]; exact hlen)]

/-- Witness for C7: an ok HTML response declaring `Content-Length: 5000000`
is rejected without reading the body. -/
theorem C7_fetch_guard_witness :
    fetchPageContent
        (FetchEvent.response ⟨true, some "text/html", some 5000000, ""⟩)
        (fun s => s) = (none, false) :=
  C7_fetch_guard ⟨true, some "text/html", some 5000000, ""⟩ (fun s => s) 5000000
    rfl (by decide)

/-- C8: when the documentation fetch fails (throws), the generation request
still proceeds to the model call — the handler behaves exactly as if the
fetch had resolved to `null` — and the prompt passed to the model contains
the fallback marker text `No documentation content available.`. -/
theorem C8_fetch_failure_recovered (dl au : String)
    (ai : String → Option String) (parse : String → Option Json)
    (hdl : dl ≠ "") (hau : au ≠ "") :
    (generateHandler (some dl) (some au) FetchOutcome.err ai parse).2 =
        some (buildPrompt au none)
    ∧ generateHandler (some dl) (some au) FetchOutcome.err ai parse =
        generateHandler (some dl) (some au) (FetchOutcome.ok none) ai parse
    ∧ ∃ s1 s2, buildPrompt au none = s1 ++ fallbackMarker ++ s2 := by
  refine ⟨?_, rfl, ⟨promptHeader ++ au ++ promptMiddle, promptFooter, rfl⟩⟩
  simp only [generateHandler]
  rw [if_neg (not_or.mpr ⟨hdl, hau⟩)]
  rfl

/-- Witness for C8: a failing fetch with concrete URLs. -/
theorem C8_fetch_failure_recovered_witness :
    (generateHandler (some "https://docs.example") (some "https://app.example")
        FetchOutcome.err (fun _ => none) (fun _ => none)).2 =
      some (buildPrompt "https://app.example" none)
    ∧ generateHandler (some "https://docs.example") (some "https://app.example")
        FetchOutcome.err (fun _ => none) (fun _ => none) =
      generateHandler (some "https://docs.example") (some "https://app.example")
        (FetchOutcome.ok none) (fun _ => none) (fun _ => none)
    ∧ ∃ s1 s2, buildPrompt "https://app.example" none =
        s1 ++ fallbackMarker ++ s2 :=
  C8_fetch_failure_recovered "https://docs.example" "https://app.example"
    (fun _ => none) (fun _ => none) (by decide) (by decide)

/-- C9 counterexample: the gateway returns the identical result (`null`)
when the backend call errors and when the backend returns no text part, so
a caller cannot tell "call failed" apart from "model produced nothing" from
the gateway's result — refuting the distinguishability claim. -/
theorem C9_failures_indistinguishable_counterexample :
    getTextGemini BackendOutcome.errored = getTextGemini BackendOutcome.noText :=
  rfl

/-- C9 (amended): `getTextGemini` collapses all failure modes to `null` —
its result is `null` exactly when the call errored, the response had no
text part, or the text was empty — and `generateAIResponse` passes this
result through unchanged, so callers see a single undifferentiated failure
(`AI model returned no response`). -/
theorem C9_gateway_failure_collapse (o : BackendOutcome) :
    generateAIResponse o = getTextGemini o ∧
      (getTextGemini o = none ↔
        (o = BackendOutcome.errored ∨ o = BackendOutcome.noText ∨
          o = BackendOutcome.text "")) := by
  refine ⟨rfl, ?_⟩
  cases o with
  | errored => simp [getTextGemini]
  | noText => simp [getTextGemini]
  | text s =>
    by_cases hs : s = ""
    · subst hs
      simp [getTextGemini]
    · simp [getTextGemini, hs]

/-- C10: in the list endpoint, `limit` and `skip` are applied to the plans
query and to the reports query independently before the two result lists
are merged, so the merged response is only bounded by twice the limit: its
length never exceeds `2 * limit`, and there are stores for which it
strictly exceeds `limit`. -/
theorem C10_independent_limits :
    (∀ plansDb reportsDb uid typ status lim skip,
        (listTests plansDb reportsDb uid typ status lim skip).length ≤ 2 * lim)
    ∧ (∃ plansDb reportsDb uid,
        1 < (listTests plansDb reportsDb uid none none 1 0).length) := by
  constructor
  · intro plansDb reportsDb uid typ status lim skip
    simp only [listTests]
    rw [length_sortDescBy, List.length_append, List.length_map, List.length_map]
    have hp : (if typ = none ∨ typ = some "plan" then
        planQuery plansDb uid lim skip else []).length ≤ lim := by
      split
      · simp only [planQuery]
        rw [List.length_take]
        exact Nat.min_le_left _ _
      · simp
    have hr : (if typ = none ∨ typ = some "report" then
        reportQuery reportsDb uid status lim skip else []).length ≤ lim := by
      split
      · simp only [reportQuery]
        rw [List.length_take]
        exact Nat.min_le_left _ _
      · simp
    omega
  · refine ⟨[⟨1, 0, "d", "a"⟩], [⟨1, 0, "queued"⟩], 1, ?_⟩
    decide

end AutoTester
